import Mathlib

/-!
Verification of the upstream change detection and reconciliation engine of a
dotfiles merge assistant.  The Python sources are shallowly embedded here:

* byte buffers become `List Nat` (one entry per byte), optional buffers become
  `Option (List Nat)` with `none` standing for a fetch failure (`None` in the
  source);
* path strings become `List Char`;
* the classifier (`smart_merge`'s per-record comparison in merger.py), the path
  mapper (paths.py) and the snapshot differ (utils.py `get_upstream_diffs`)
  become executable functions;
* external processes (git) are passed in as oracle functions returning
  `Option` results, `none` standing for a failed command.
-/

namespace MergeAssistant

/-! ## Byte buffers and the classifier (merger.py) -/

/-- The ASCII whitespace bytes that Python's `bytes.strip()` removes:
space, tab, newline, carriage return, vertical tab, form feed. -/
def isWsByte (b : Nat) : Bool :=
  b = 32 || b = 9 || b = 10 || b = 13 || b = 11 || b = 12

/-- `content.strip()` on a `bytes` buffer: drop ASCII whitespace from both
ends of the whole buffer (not per line). -/
def bstrip (l : List Nat) : List Nat :=
  ((l.dropWhile isWsByte).reverse.dropWhile isWsByte).reverse

/-- merger.py `is_binary`: `b'\0' in content if content else False`.
`none` models Python `None` (falsy, hence `False`); an empty buffer is also
falsy and contains no NUL anyway. -/
def is_binary : Option (List Nat) → Bool
  | none => false
  | some c => c.contains 0

/-- The three classification outcomes of the per-record comparison. -/
inductive Classification
  | Skip
  | AutoUpdate
  | Conflict
deriving DecidableEq

/-- Text rule of merger.py `smart_merge`: compare the whole-buffer-stripped
contents, in order `yours == theirs` (skip), `yours == base` (auto-update),
otherwise conflict. -/
def classify_text (base yours theirs : List Nat) : Classification :=
  if bstrip yours = bstrip theirs then .Skip
  else if bstrip yours = bstrip base then .AutoUpdate
  else .Conflict

/-- Binary rule of merger.py `smart_merge`: byte-exact comparisons, same
decision order.  Operands are kept optional because Python's `==` tolerates
`None` (it simply compares unequal to any buffer), which is reachable through
the unresolved-buffer guard below. -/
def classify_binary (base yours theirs : Option (List Nat)) : Classification :=
  if yours = theirs then .Skip
  else if yours = base then .AutoUpdate
  else .Conflict

/-- Outcome of running one record through `smart_merge`'s guard and
comparison.  `crash` models an uncaught `AttributeError`: the text branch
calls `.strip()` on each buffer, which raises when that buffer is `None`. -/
inductive RecordOutcome
  | excluded
  | classified (c : Classification)
  | crash
deriving DecidableEq

/-- Body of the per-record comparison, after the unresolved-buffer guard:
binary detection, then the binary or the text rule.  In the text branch an
unresolved buffer reaches `.strip()` and raises. -/
def record_body (base yours theirs : Option (List Nat)) : RecordOutcome :=
  if is_binary base || is_binary yours || is_binary theirs then
    .classified (classify_binary base yours theirs)
  else
    match yours, base, theirs with
    | some y, some b, some t => .classified (classify_text b y t)
    | _, _, _ => .crash

/-- merger.py `smart_merge`, per-record guard plus comparison:

    if base_content is None or theirs_content is None or yours_content is None:
        if base_content is None: base_content = b""
        else: continue

When `base` is unresolved it is replaced by the empty buffer and the record
falls through to the comparison even if `yours` or `theirs` is also
unresolved; only when `base` resolved and `yours` or `theirs` did not is the
record excluded (`continue`). -/
def processRecord (base yours theirs : Option (List Nat)) : RecordOutcome :=
  if base = none ∨ theirs = none ∨ yours = none then
    if base = none then record_body (some []) yours theirs
    else .excluded
  else record_body base yours theirs

/-! ## Path mapper (paths.py) -/

/-- Fuel-indexed worker for Python's `str.replace`: left-to-right,
non-overlapping replacement of every occurrence of `pat` by `repl`.  The fuel
is always at least the length of the subject, so the fuel-exhausted branch is
unreachable from `replaceAll`; it is kept only so the recursion is
structural. -/
def replaceAllF : Nat → List Char → List Char → List Char → List Char
  | 0, _, _, s => s
  | _ + 1, _, _, [] => []
  | fuel + 1, pat, repl, c :: rest =>
    if pat ≠ [] ∧ pat.isPrefixOf (c :: rest) = true then
      repl ++ replaceAllF fuel pat repl (rest.drop (pat.length - 1))
    else
      c :: replaceAllF fuel pat repl rest

/-- Python `s.replace(pat, repl)` on character lists. -/
def replaceAll (pat repl s : List Char) : List Char :=
  replaceAllF s.length pat repl s

/-- Whether `pat` occurs as a contiguous sublist of the subject. -/
def containsSub (pat : List Char) : List Char → Bool
  | [] => pat.isEmpty
  | c :: rest => pat.isPrefixOf (c :: rest) || containsSub pat rest

/-- paths.py `normalize_chezmoi_path`: five global substring replacements, in
source order —

    p = path.replace("dot_", ".")
    p = p.replace("private_", "")
    p = p.replace("executable_", "")
    p = p.replace("exact_", "")
    p = p.replace("readonly_", "")
-/
def normalize_chezmoi_path (path : List Char) : List Char :=
  replaceAll "readonly_".toList []
    (replaceAll "exact_".toList []
      (replaceAll "executable_".toList []
        (replaceAll "private_".toList []
          (replaceAll "dot_".toList ".".toList path))))

/-- The five tokens that `normalize_chezmoi_path` actually replaces. -/
def chezmoi_applied_tokens : List (List Char) :=
  ["dot_".toList, "private_".toList, "executable_".toList, "exact_".toList,
   "readonly_".toList]

/-- paths.py `clean_upstream_path`: strip the subdirectory filter and any
leading slashes when the filter is non-trivial and is a prefix of the path —

    if inner_path and inner_path != "." and path.startswith(inner_path):
        return path[len(inner_path):].lstrip("/")
    return path
-/
def clean_upstream_path (path inner_path : List Char) : List Char :=
  if inner_path ≠ [] ∧ inner_path ≠ ".".toList ∧ inner_path.isPrefixOf path = true then
    (path.drop inner_path.length).dropWhile (fun c => c = '/')
  else path

/-- One filesystem entry produced by `source_dir.rglob("*")`, identified by
its path relative to the local root and whether it is a regular file.  A
list of `FsEntry` models the traversal, in traversal order. -/
structure FsEntry where
  path : List Char
  is_file : Bool
deriving DecidableEq

/-- Split a relative path into its components, modelling `PurePath.parts`
for normalized relative paths (no leading or doubled separators). -/
def splitSlash : List Char → List (List Char)
  | [] => [[]]
  | c :: rest =>
    if c = '/' then [] :: splitSlash rest
    else
      match splitSlash rest with
      | [] => [[c]]
      | h :: t => (c :: h) :: t

/-- The version-control metadata component excluded by the traversal filter
`".git" not in item.parts`. -/
def gitPart : List Char := ".git".toList

/-- config.py `EXTERNAL_DIR`, the external-cache directory name. -/
def externalDir : List Char := ".external_sources".toList

/-- The per-entry test of paths.py `find_local_match`'s loop: a regular file,
no `.git` component, and the normalized relative path ends with the cleaned
upstream path. -/
def match_pred (upstream_file inner_path : List Char) (e : FsEntry) : Bool :=
  e.is_file && !((splitSlash e.path).contains gitPart) &&
    (clean_upstream_path upstream_file inner_path).isSuffixOf
      (normalize_chezmoi_path e.path)

/-- paths.py `find_local_match`: walk the traversal in order and return the
relative path of the first entry passing `match_pred`; `none` when the loop
falls through (`return None`). -/
def find_local_match (entries : List FsEntry) (upstream_file inner_path : List Char) :
    Option (List Char) :=
  (entries.find? (match_pred upstream_file inner_path)).map FsEntry.path

/-- Modelled from the spec: the enumeration described by the claim for
`findLocalMatch`, which excludes both version-control metadata and the
external-cache directory (config.py `EXTERNAL_DIR`); the source's
`find_local_match` filters only on `.git`.  Used solely to compare the
spec's words with the code. -/
def find_local_match_claim (entries : List FsEntry) (upstream_file inner_path : List Char) :
    Option (List Char) :=
  (entries.find? (fun e =>
      e.is_file && !((splitSlash e.path).contains gitPart) &&
        !((splitSlash e.path).contains externalDir) &&
        (clean_upstream_path upstream_file inner_path).isSuffixOf
          (normalize_chezmoi_path e.path))).map FsEntry.path

/-! ## Snapshot differ (utils.py `get_upstream_diffs`) -/

/-- utils.py `get_upstream_diffs`.  Revision tokens are `List Char` with `[]`
standing for a falsy token (Python `None` or `""`).  The two git invocations
are oracles: `ls_tree new` models `git ls-tree -r --name-only new` and
`diff_names old new` models `git diff --name-only old..new`, each already
split into lines, with `none` for a failed command (`run_cmd` returning
`None`); `if not output: return []` maps both a failure and empty output to
the empty change set. -/
def get_upstream_diffs (ls_tree : List Char → Option (List (List Char)))
    (diff_names : List Char → List Char → Option (List (List Char)))
    (old_commit new_commit inner_path : List Char) : List (List Char) :=
  if new_commit = [] then []
  else
    match
      (if old_commit = [] ∨ old_commit = new_commit then ls_tree new_commit
       else diff_names old_commit new_commit) with
    | none => []
    | some files =>
      if inner_path ≠ [] ∧ inner_path ≠ ".".toList then
        files.filter (fun f => inner_path.isPrefixOf f)
      else files

/-! ## Conflict resolver merge step (merger.py `smart_merge`, choice `m`) -/

/-- Terminal outcome of the `m` (merge) choice on a text conflict record. -/
inductive MergeStepResult
  | cleanAdopted
  | markedForEdit
deriving DecidableEq

/-- merger.py, choice `m`: the `git merge-file` invocation.  `some rc` is a
completed run with exit code `rc`; `none` models the invocation itself
raising (caught by `except`, which only prints).  The source initializes
`ret_code = 0` before the `try`, so a raised invocation keeps `ret_code = 0`
and takes the success branch; a nonzero exit code leaves conflict markers
and opens the editor.  Both branches count the record as processed and the
loop moves on to the next record. -/
def merge_choice_step (invocation : Option Int) : MergeStepResult :=
  let ret_code : Int := match invocation with | some rc => rc | none => 0
  if ret_code = 0 then .cleanAdopted else .markedForEdit

/-! ## Helper lemmas -/

theorem replaceAllF_fuel_irrel (pat repl : List Char) :
    ∀ f g s, List.length s ≤ f → List.length s ≤ g →
      replaceAllF f pat repl s = replaceAllF g pat repl s := by
  intro f
  induction f with
  | zero =>
    intro g s hf _
    have hs : s = [] := List.eq_nil_of_length_eq_zero (Nat.le_zero.mp hf)
    subst hs
    cases g <;> rfl
  | succ f ih =>
    intro g s hf hg
    cases s with
    | nil => cases g <;> rfl
    | cons c rest =>
      cases g with
      | zero => simp at hg
      | succ g =>
        simp only [List.length_cons, Nat.add_le_add_iff_right] at hf hg
        simp only [replaceAllF]
        by_cases h : pat ≠ [] ∧ pat.isPrefixOf (c :: rest) = true
        · rw [if_pos h, if_pos h]
          have hlen : (rest.drop (pat.length - 1)).length ≤ rest.length := by
            rw [List.length_drop]; omega
          exact congrArg (repl ++ ·)
            (ih g (rest.drop (pat.length - 1)) (Nat.le_trans hlen hf) (Nat.le_trans hlen hg))
        · rw [if_neg h, if_neg h]
          exact congrArg (c :: ·) (ih g rest hf hg)

theorem replaceAll_cons_of_neg (pat repl : List Char) (c : Char) (l : List Char)
    (h : ¬ (pat ≠ [] ∧ pat.isPrefixOf (c :: l) = true)) :
    replaceAll pat repl (c :: l) = c :: replaceAll pat repl l := by
  simp only [replaceAll, List.length_cons, replaceAllF, if_neg h]

theorem isPrefixOf_append_self : ∀ (l s : List Char), l.isPrefixOf (l ++ s) = true
  | [], _ => by simp [List.isPrefixOf]
  | c :: l, s => by simp [List.isPrefixOf, isPrefixOf_append_self l s]

theorem replaceAll_append_pat (p0 : Char) (pr repl s : List Char) :
    replaceAll (p0 :: pr) repl ((p0 :: pr) ++ s) = repl ++ replaceAll (p0 :: pr) repl s := by
  simp only [replaceAll, List.cons_append, List.length_cons, replaceAllF]
  rw [if_pos ⟨List.cons_ne_nil _ _, by
    exact isPrefixOf_append_self (p0 :: pr) s⟩]
  simp only [Nat.add_sub_cancel, List.append_eq, List.drop_left]
  exact congrArg (repl ++ ·)
    (replaceAllF_fuel_irrel _ _ _ _ _ (by simp) (Nat.le_refl _))

theorem replaceAll_cons_of_head_ne (p0 : Char) (pr repl : List Char) (c : Char)
    (l : List Char) (h : ¬ p0 = c) :
    replaceAll (p0 :: pr) repl (c :: l) = c :: replaceAll (p0 :: pr) repl l := by
  apply replaceAll_cons_of_neg
  rintro ⟨-, hpre⟩
  simp [List.isPrefixOf, h] at hpre

theorem replaceAll_of_not_containsSub (pat repl : List Char) :
    ∀ l, containsSub pat l = false → replaceAll pat repl l = l := by
  intro l
  induction l with
  | nil => intro _; rfl
  | cons c rest ih =>
    intro h
    simp only [containsSub, Bool.or_eq_false_iff] at h
    rw [replaceAll_cons_of_neg _ _ _ _ (by rintro ⟨-, hpre⟩; rw [h.1] at hpre; cases hpre)]
    rw [ih h.2]

theorem find_eq_filter_head {α : Type} (p : α → Bool) :
    ∀ l : List α, l.find? p = (l.filter p).head? := by
  intro l
  induction l with
  | nil => rfl
  | cons c rest ih =>
    by_cases h : p c = true
    · rw [List.find?_cons_of_pos rest h, List.filter_cons_of_pos h, List.head?_cons]
    · rw [List.find?_cons_of_neg rest h, List.filter_cons_of_neg h, ih]

/-! ## Claims -/

/-- C1: for a record whose three buffers are all resolved and none contains a
NUL byte, the classifier compares whole-buffer-stripped contents in order:
yours stripped equals theirs stripped gives Skip regardless of base;
otherwise yours stripped equals base stripped gives AutoUpdate; otherwise
Conflict. -/
theorem C1_text_decision_order (base yours theirs : List Nat)
    (hb : base.contains 0 = false) (hy : yours.contains 0 = false)
    (ht : theirs.contains 0 = false) :
    (bstrip yours = bstrip theirs →
      processRecord (some base) (some yours) (some theirs) = .classified .Skip) ∧
    (bstrip yours ≠ bstrip theirs → bstrip yours = bstrip base →
      processRecord (some base) (some yours) (some theirs) = .classified .AutoUpdate) ∧
    (bstrip yours ≠ bstrip theirs → bstrip yours ≠ bstrip base →
      processRecord (some base) (some yours) (some theirs) = .classified .Conflict) := by
  have hbin : (is_binary (some base) || is_binary (some yours) || is_binary (some theirs))
      = false := by
    show (base.contains 0 || yours.contains 0 || theirs.contains 0) = false
    rw [hb, hy, ht]
    rfl
  have hpr : processRecord (some base) (some yours) (some theirs)
      = .classified (classify_text base yours theirs) := by
    simp [processRecord, record_body, hbin]
  refine ⟨fun h1 => ?_, fun h1 h2 => ?_, fun h1 h2 => ?_⟩ <;> rw [hpr] <;>
    unfold classify_text
  · rw [if_pos h1]
  · rw [if_neg h1, if_pos h2]
  · rw [if_neg h1, if_neg h2]

/-- C1 witness: yours `[98, 32]` and theirs `[98]` strip to the same buffer,
so the record is skipped regardless of base `[97]`. -/
theorem C1_witness :
    processRecord (some [97]) (some [98, 32]) (some [98]) = .classified .Skip :=
  (C1_text_decision_order [97] [98, 32] [98] (by decide) (by decide) (by decide)).1 (by decide)

/-- C2: for a record where at least one resolved buffer contains a NUL byte,
all comparisons are byte-exact: Skip iff yours equals theirs, AutoUpdate iff
yours differs from theirs and equals base, Conflict otherwise — in
particular no whitespace stripping ever applies. -/
theorem C2_binary_decision (base yours theirs : List Nat)
    (hbin : (is_binary (some base) || is_binary (some yours) || is_binary (some theirs)) = true) :
    (processRecord (some base) (some yours) (some theirs) = .classified .Skip ↔
      yours = theirs) ∧
    (processRecord (some base) (some yours) (some theirs) = .classified .AutoUpdate ↔
      (yours ≠ theirs ∧ yours = base)) ∧
    (processRecord (some base) (some yours) (some theirs) = .classified .Conflict ↔
      (yours ≠ theirs ∧ yours ≠ base)) := by
  have hpr : processRecord (some base) (some yours) (some theirs)
      = .classified (classify_binary (some base) (some yours) (some theirs)) := by
    simp [processRecord, record_body, hbin]
  rw [hpr]
  by_cases h1 : yours = theirs
  · have hv : classify_binary (some base) (some yours) (some theirs) = .Skip := by
      unfold classify_binary
      rw [if_pos (by rw [h1])]
    rw [hv]
    simp [h1]
  · by_cases h2 : yours = base
    · subst h2
      have hv : classify_binary (some yours) (some yours) (some theirs) = .AutoUpdate := by
        unfold classify_binary
        rw [if_neg (by simp [h1]), if_pos rfl]
      rw [hv]
      simp [h1]
    · have hv : classify_binary (some base) (some yours) (some theirs) = .Conflict := by
        unfold classify_binary
        rw [if_neg (by simp [h1]), if_neg (by simp [h2])]
      rw [hv]
      simp [h1, h2]

/-- C2 witness: the triple base `[0, 10]`, yours `[0, 10, 32]`, theirs
`[0, 10]` would strip to equal buffers, but it contains a NUL byte, so it is
compared byte-exact and classified Conflict. -/
theorem C2_witness :
    processRecord (some [0, 10]) (some [0, 10, 32]) (some [0, 10]) = .classified .Conflict :=
  ((C2_binary_decision [0, 10] [0, 10, 32] [0, 10] (by decide)).2.2).mpr (by decide)

/-- C3 counterexample: with the old token absent and a non-empty tree at the
new token (it lists the single path `a.txt`), the subdirectory filter `sub`
retains nothing and the change set is empty — refuting "never the empty set
when the tree at the new token is non-empty". -/
theorem C3_counterexample :
    get_upstream_diffs (fun _ => some ["a.txt".toList]) (fun _ _ => none)
      [] "new".toList "sub".toList = [] ∧
    (["a.txt".toList] : List (List Char)) ≠ [] := by
  constructor <;> decide

/-- C3 amended: when the new token is present and the old token is absent or
equal to it, the change set is the full tree listing at the new token
filtered by the subdirectory prefix, and it is non-empty whenever at least
one listed path starts with that prefix (so, with no filter, whenever the
tree is non-empty). -/
theorem C3_amended (ls_tree : List Char → Option (List (List Char)))
    (diff_names : List Char → List Char → Option (List (List Char)))
    (old_commit new_commit inner_path : List Char) (files : List (List Char))
    (hnew : new_commit ≠ []) (hold : old_commit = [] ∨ old_commit = new_commit)
    (hls : ls_tree new_commit = some files) :
    get_upstream_diffs ls_tree diff_names old_commit new_commit inner_path =
      (if inner_path ≠ [] ∧ inner_path ≠ ".".toList then
        files.filter (fun f => inner_path.isPrefixOf f)
       else files) ∧
    ((∃ f, f ∈ files ∧ inner_path.isPrefixOf f = true) →
      get_upstream_diffs ls_tree diff_names old_commit new_commit inner_path ≠ []) := by
  have h1 : get_upstream_diffs ls_tree diff_names old_commit new_commit inner_path =
      (if inner_path ≠ [] ∧ inner_path ≠ ".".toList then
        files.filter (fun f => inner_path.isPrefixOf f)
       else files) := by
    unfold get_upstream_diffs
    rw [if_neg hnew, if_pos hold, hls]
  refine ⟨h1, fun hex => ?_⟩
  obtain ⟨f, hf, hpre⟩ := hex
  rw [h1]
  by_cases hi : inner_path ≠ [] ∧ inner_path ≠ ".".toList
  · rw [if_pos hi]
    exact List.ne_nil_of_mem (List.mem_filter.mpr ⟨hf, hpre⟩)
  · rw [if_neg hi]
    exact List.ne_nil_of_mem hf

/-- C3 amended witness: first run (old token absent) over a tree listing
`sub/a` with subdirectory filter `sub` yields a non-empty change set. -/
theorem C3_amended_witness :
    get_upstream_diffs (fun _ => some ["sub/a".toList]) (fun _ _ => none)
      [] "n".toList "sub".toList ≠ [] :=
  (C3_amended (fun _ => some ["sub/a".toList]) (fun _ _ => none)
    [] "n".toList "sub".toList ["sub/a".toList]
    (by decide) (Or.inl rfl) rfl).2 ⟨"sub/a".toList, by decide, by decide⟩

/-- C4 counterexample: normalize rewrites `mydot_file` to `my.file`, so a
token occurrence in the middle of a component is not left intact; and a path
whose components start with the configured tokens `symlink_`, `modify_`,
`create_`, `empty_` is returned unchanged, so not every configured token is
removed at a component start (the source replaces only five of the nine
tokens of `CHEZMOI_PREFIXES`). -/
theorem C4_counterexample :
    normalize_chezmoi_path "mydot_file".toList = "my.file".toList ∧
    normalize_chezmoi_path "symlink_a/modify_b/create_c/empty_d".toList =
      "symlink_a/modify_b/create_c/empty_d".toList := by
  constructor <;> decide

/-- C4 amended: normalize performs global substring replacement of exactly
five tokens (`dot_` to `.`; `private_`, `executable_`, `exact_`, `readonly_`
removed): a leading `dot_` is rewritten to a dot, an occurrence in the
middle of a component is rewritten as well, and a path containing none of
the five tokens — whatever other configured tokens it carries — is left
unchanged. -/
theorem C4_amended_normalize (rest p : List Char)
    (hp : ∀ tok ∈ chezmoi_applied_tokens, containsSub tok p = false) :
    normalize_chezmoi_path ("dot_".toList ++ rest) = '.' :: normalize_chezmoi_path rest ∧
    normalize_chezmoi_path "mydot_file".toList = "my.file".toList ∧
    normalize_chezmoi_path p = p := by
  refine ⟨?_, by decide, ?_⟩
  · show normalize_chezmoi_path (('d' :: "ot_".toList) ++ rest) = _
    unfold normalize_chezmoi_path
    rw [show ("dot_".toList = 'd' :: "ot_".toList) from rfl,
      replaceAll_append_pat 'd' "ot_".toList ".".toList rest]
    rw [show (".".toList = ['.']) from rfl, List.cons_append, List.nil_append]
    rw [show ("private_".toList = 'p' :: "rivate_".toList) from rfl,
      replaceAll_cons_of_head_ne 'p' "rivate_".toList [] '.' _ (by decide)]
    rw [show ("executable_".toList = 'e' :: "xecutable_".toList) from rfl,
      replaceAll_cons_of_head_ne 'e' "xecutable_".toList [] '.' _ (by decide)]
    rw [show ("exact_".toList = 'e' :: "xact_".toList) from rfl,
      replaceAll_cons_of_head_ne 'e' "xact_".toList [] '.' _ (by decide)]
    rw [show ("readonly_".toList = 'r' :: "eadonly_".toList) from rfl,
      replaceAll_cons_of_head_ne 'r' "eadonly_".toList [] '.' _ (by decide)]
  · unfold normalize_chezmoi_path
    rw [replaceAll_of_not_containsSub _ _ _ (hp "dot_".toList (by decide)),
      replaceAll_of_not_containsSub _ _ _ (hp "private_".toList (by decide)),
      replaceAll_of_not_containsSub _ _ _ (hp "executable_".toList (by decide)),
      replaceAll_of_not_containsSub _ _ _ (hp "exact_".toList (by decide)),
      replaceAll_of_not_containsSub _ _ _ (hp "readonly_".toList (by decide))]

/-- C4 amended witness: a path with `symlink_` and `empty_` components and
none of the five replaced tokens is a fixed point of normalize. -/
theorem C4_amended_witness :
    normalize_chezmoi_path "symlink_config/empty_file".toList =
      "symlink_config/empty_file".toList :=
  (C4_amended_normalize [] "symlink_config/empty_file".toList (by decide)).2.2

/-- C5 counterexample: the source's lookup returns a file inside the
external-cache directory `.external_sources`, which the claim's enumeration
(modelled by `find_local_match_claim`) excludes — so the source does not
exclude the external-cache directory. -/
theorem C5_counterexample :
    find_local_match [⟨".external_sources/repo/config/app.conf".toList, true⟩]
      "config/app.conf".toList [] = some ".external_sources/repo/config/app.conf".toList ∧
    find_local_match_claim [⟨".external_sources/repo/config/app.conf".toList, true⟩]
      "config/app.conf".toList [] = none := by
  constructor <;> decide

/-- C5 amended: the lookup enumerates regular files excluding only paths
with a `.git` component (not the external-cache directory) and returns the
first whose normalized path has the cleaned upstream path as a suffix; when
exactly one entry passes that test it is returned, and when none does the
result is `none` (an explicit not-found value — the function is total). -/
theorem C5_amended (entries : List FsEntry) (upstream_file inner_path : List Char) :
    (∀ e : FsEntry, entries.filter (match_pred upstream_file inner_path) = [e] →
      find_local_match entries upstream_file inner_path = some e.path) ∧
    (entries.filter (match_pred upstream_file inner_path) = [] →
      find_local_match entries upstream_file inner_path = none) := by
  constructor
  · intro e he
    unfold find_local_match
    rw [find_eq_filter_head, he]
    rfl
  · intro he
    unfold find_local_match
    rw [find_eq_filter_head, he]
    rfl

/-- C5 amended witness: a tree with the single matching file
`config/app.conf` yields exactly that file. -/
theorem C5_amended_witness :
    find_local_match [⟨"config/app.conf".toList, true⟩] "config/app.conf".toList [] =
      some "config/app.conf".toList :=
  (C5_amended [⟨"config/app.conf".toList, true⟩] "config/app.conf".toList []).1
    ⟨"config/app.conf".toList, true⟩ (by decide)

/-- C7 counterexample: with the new token absent the differ returns the
ordinary empty change set — the same value an actually-empty successful diff
returns — instead of failing; its result type carries no error at all. -/
theorem C7_counterexample :
    get_upstream_diffs (fun _ => some ["a.txt".toList]) (fun _ _ => some []) [] [] [] = [] ∧
    get_upstream_diffs (fun _ => some ["a.txt".toList]) (fun _ _ => some [])
      "o".toList "n".toList [] = [] := by
  constructor <;> decide

/-- C7 amended: whenever the new revision token is absent, the snapshot diff
returns the empty change set; no error is raised, and the caller carries on
treating it as "no upstream changes". -/
theorem C7_amended (ls_tree : List Char → Option (List (List Char)))
    (diff_names : List Char → List Char → Option (List (List Char)))
    (old_commit inner_path : List Char) :
    get_upstream_diffs ls_tree diff_names old_commit [] inner_path = [] := by
  simp [get_upstream_diffs]

/-- C6: evaluating the per-record guard at a record whose base and yours are
both unresolved and whose theirs is the plain-text byte `x`: the record is
not excluded — the guard replaces the unresolved base with the empty buffer
and falls through to the text comparison, where the unresolved yours buffer
reaches `.strip()` and raises, aborting the whole batch.  The claim says a
record with unresolved yours is excluded and processing continues. -/
theorem C6_code_eval :
    processRecord none none (some [120]) = .crash := by decide

/-- C8: evaluating the merge choice at an invocation that itself cannot run
(`none` models `subprocess.run` raising): `ret_code` keeps its
pre-initialized value 0, so the step takes the clean-success branch and the
record is marked processed — not treated as an unresolved conflict falling
back to a take-theirs/keep-yours choice as the claim (and the code's own
"Merge failed." message) say. -/
theorem C8_code_eval : merge_choice_step none = .cleanAdopted := by decide

/-- C9 counterexample: cleaning strips only the subdirectory prefix, so for
upstream path `dot_config/private_app.conf` with empty subdir the cleaned
path is not `config/app.conf`, and in a local tree containing exactly
`config/app.conf` the lookup finds no match. -/
theorem C9_counterexample :
    clean_upstream_path "dot_config/private_app.conf".toList [] ≠ "config/app.conf".toList ∧
    find_local_match [⟨"config/app.conf".toList, true⟩]
      "dot_config/private_app.conf".toList [] = none := by
  constructor <;> decide

/-- C9 amended: with empty subdir the cleaned upstream path is
`dot_config/private_app.conf` unchanged (name-mangling prefixes are not
stripped by cleaning), and a local tree containing `config/app.conf` yields
not-found, since the normalized local path does not end with the cleaned
path. -/
theorem C9_scenario_a_actual :
    clean_upstream_path "dot_config/private_app.conf".toList [] =
      "dot_config/private_app.conf".toList ∧
    find_local_match [⟨"config/app.conf".toList, true⟩]
      "dot_config/private_app.conf".toList [] = none := by
  constructor <;> decide

/-- C10: when the cleaned upstream path is empty (e.g. the upstream path
equals the subdirectory prefix), every normalized path has it as a suffix,
so the lookup returns the first regular file of the traversal outside
`.git`, regardless of its name. -/
theorem C10_empty_clean_first_file (entries : List FsEntry)
    (upstream_file inner_path : List Char)
    (hclean : clean_upstream_path upstream_file inner_path = []) :
    find_local_match entries upstream_file inner_path =
      ((entries.filter (fun e =>
          e.is_file && !((splitSlash e.path).contains gitPart))).head?).map FsEntry.path := by
  have hpred : match_pred upstream_file inner_path = fun e =>
      e.is_file && !((splitSlash e.path).contains gitPart) := by
    funext e
    simp [match_pred, hclean, List.isSuffixOf, List.isPrefixOf]
  unfold find_local_match
  rw [hpred, find_eq_filter_head]

/-- C10 witness: upstream path `sub` with subdir `sub` cleans to the empty
path, and the lookup returns the unrelated first file `zzz.bin`. -/
theorem C10_witness :
    find_local_match [⟨"zzz.bin".toList, true⟩] "sub".toList "sub".toList =
      some "zzz.bin".toList :=
  (C10_empty_clean_first_file [⟨"zzz.bin".toList, true⟩] "sub".toList "sub".toList
    (by decide)).trans (by decide)

end MergeAssistant
